import Mathlib

/-!
Verification of the freemocap calibration-diagnostics core.

The development shallowly embeds the data model and the operations of the
diagnostics pipeline:

* the merge step of `freemocap/diagnostics/calibration/merge_calibration_data.py`
  (load existing summary CSV, evict rows tagged "current", append the newly
  collected batch, persist);
* the version parsing and ordering of
  `freemocap/diagnostics/generate_calibration_report.py` (`safe_parse`,
  `CURRENT_SENTINEL`, the latest-per-platform summary table);
* the run-record builder of
  `freemocap/diagnostics/calculate_calibration_diagnostics.py` (`os_map`);
* the neighbor-distance extractor and statistics aggregator
  (`get_neighbor_distances` / `get_neighbor_stats`), whose implementation is
  not part of the repository snapshot and is therefore modelled from the
  specification.

Statistics values are embedded as rationals: the pipeline only moves them
around, and the properties proved here are exact identities, counts and
orderings, none of which depend on floating-point rounding.
-/

namespace FreemocapCalib

/-- One row of the calibration summary table
(columns `os, version, mean_distance, median_distance, std_distance, mean_error`
of `calibration_diagnostics_summary.csv`). -/
structure Row where
  os : String
  version : String
  mean_distance : ℚ
  median_distance : ℚ
  std_distance : ℚ
  mean_error : ℚ
deriving DecidableEq

/-- The whitespace class of Python's `str.strip()` (restricted to the ASCII
whitespace characters, which are the only ones arising in this pipeline). -/
def isPySpace (c : Char) : Bool :=
  c == ' ' || c == '\t' || c == '\n' || c == '\x0d' || c == '\x0b' || c == '\x0c'

/-- Embedding of pandas `.str.strip()` on a single cell: drop leading and
trailing whitespace. -/
def pyStrip (s : String) : String :=
  String.mk (((s.data.dropWhile isPySpace).reverse.dropWhile isPySpace).reverse)

/-- Embedding of `new_df["os"] = new_df["os"].str.strip()` on one row
(also the later `full_df["os"] = full_df["os"].str.strip()`). -/
def stripOsRow (r : Row) : Row :=
  { r with os := pyStrip r.os }

/-- Embedding of the module-level merge of
`merge_calibration_data.py`.

* `history` is the frame loaded from `calibration_diagnostics_summary.csv`
  (or the empty frame when the file does not exist yet);
* `files` is the list of data frames read from the CSV files found under
  `collected/` (one inner list of rows per file; a header-only CSV is an
  empty inner list).

The script exits via `sys.exit("No calibration rows found in ./collected")`
when `collected` holds no CSV file at all; otherwise it concatenates the
files into `new_df`, strips the `os` column of `new_df`, drops every
`history` row whose `version` is `"current"`, appends `new_df`, strips the
`os` column of the combined frame, and persists the result. -/
def mergeCalibrationData (history : List Row) (files : List (List Row)) :
    Except String (List Row) :=
  if files.isEmpty then
    Except.error "No calibration rows found in ./collected"
  else
    let new_df := files.flatten.map stripOsRow
    let full_df := (history.filter (fun r => r.version ≠ "current")) ++ new_df
    Except.ok (full_df.map stripOsRow)

/-- Number of rows of a frame carrying a given `(os, version)` identity key. -/
def countKey (rows : List Row) (osName ver : String) : Nat :=
  rows.countP (fun r => r.os == osName && r.version == ver)

/-! ## Version parsing and ordering

`generate_calibration_report.py` parses version strings with
`packaging.version.parse` (the PEP 440 grammar) and maps the tag
`"current"` to `CURRENT_SENTINEL = Version("9999.0.0")`.  The parser below
embeds the published PEP 440 version pattern used by
`packaging.version.parse`: optional surrounding whitespace, optional `v`,
optional epoch `N!`, the dotted release segment, optional pre-release
(`a`/`b`/`c`/`rc`/`alpha`/`beta`/`pre`/`preview`), optional post release
(`-N` or `post`/`rev`/`r`), optional dev release, optional `+local` part,
all case-insensitive.  `none` models the `InvalidVersion` exception. -/

/-- ASCII decimal digit test (the `[0-9]` class of the PEP 440 pattern). -/
def isAsciiDigit (c : Char) : Bool :=
  48 ≤ c.toNat && c.toNat ≤ 57

/-- Numeric value of a decimal digit character. -/
def digitVal (c : Char) : Nat := c.toNat - 48

/-- The number denoted by a list of decimal digit characters. -/
def natOfDigits (ds : List Char) : Nat :=
  ds.foldl (fun a c => 10 * a + digitVal c) 0

/-- Parse one or more decimal digits (`[0-9]+`); return the number and the
unconsumed remainder. -/
def parseNat (cs : List Char) : Option (Nat × List Char) :=
  let ds := cs.takeWhile isAsciiDigit
  if ds.isEmpty then none
  else some (natOfDigits ds, cs.dropWhile isAsciiDigit)

/-- Remaining groups of the release segment (`(?:\.[0-9]+)*`), fuelled for
termination; each iteration consumes at least two characters, so fuel equal
to the input length never runs out. -/
def releaseRest : Nat → List Char → List Nat × List Char
  | 0, cs => ([], cs)
  | fuel + 1, '.' :: rest =>
    (match parseNat rest with
      | some (n, rest2) =>
        (n :: (releaseRest fuel rest2).1, (releaseRest fuel rest2).2)
      | none => ([], '.' :: rest))
  | _ + 1, cs => ([], cs)

/-- The optional separator `[-_\.]?` of the PEP 440 pattern (consumed
greedily, as the regex does). -/
def dropSep : List Char → List Char
  | c :: t => if c == '-' || c == '_' || c == '.' then t else c :: t
  | [] => []

/-- Case-insensitive literal match; returns the remainder on success. -/
def startsWithCI : List Char → List Char → Option (List Char)
  | [], cs => some cs
  | _ :: _, [] => none
  | k :: ks, c :: cs => if c.toLower == k then startsWithCI ks cs else none

/-- Pre-release keywords with their normalized phase rank
(`a`/`alpha` ↦ 0, `b`/`beta` ↦ 1, `c`/`rc`/`pre`/`preview` ↦ 2, the
normalization performed by `packaging`).  Longest keyword first, which
matches the language the backtracking regex alternation accepts. -/
def preKeywords : List (List Char × Nat) :=
  [("preview".data, 2), ("alpha".data, 0), ("beta".data, 1), ("pre".data, 2),
   ("rc".data, 2), ("a".data, 0), ("b".data, 1), ("c".data, 2)]

/-- Post-release keywords (`post`/`rev`/`r`), longest first. -/
def postKeywords : List (List Char × Nat) :=
  [("post".data, 0), ("rev".data, 0), ("r".data, 0)]

/-- Try each keyword in order; return its rank and the remainder. -/
def matchKeywords (kws : List (List Char × Nat)) (cs : List Char) :
    Option (Nat × List Char) :=
  match kws with
  | [] => none
  | (k, r) :: rest =>
    match startsWithCI k cs with
    | some cs2 => some (r, cs2)
    | none => matchKeywords rest cs

/-- The optional number after a keyword (`[-_\.]?(?:[0-9]+)?`; a missing
number counts as 0, as in `packaging`). -/
def parseNumTail (cs : List Char) : Nat × List Char :=
  let cs2 := dropSep cs
  match parseNat cs2 with
  | some (n, rest) => (n, rest)
  | none => (0, cs2)

/-- Pre-release part (`[-_\.]?(a|b|c|rc|alpha|beta|pre|preview)[-_\.]?[0-9]*`):
phase rank and number, or `none` leaving the input unconsumed. -/
def parsePre (cs : List Char) : Option (Nat × Nat) × List Char :=
  match matchKeywords preKeywords (dropSep cs) with
  | some (rank, rest) =>
    let nt := parseNumTail rest
    (some (rank, nt.1), nt.2)
  | none => (none, cs)

/-- Keyword form of the post-release part. -/
def postKeywordPath (cs : List Char) : Option Nat × List Char :=
  match matchKeywords postKeywords (dropSep cs) with
  | some (_, rest) =>
    let nt := parseNumTail rest
    (some nt.1, nt.2)
  | none => (none, cs)

/-- Post-release part: `-[0-9]+`, or `[-_\.]?(post|rev|r)[-_\.]?[0-9]*`. -/
def parsePost (cs : List Char) : Option Nat × List Char :=
  match cs with
  | '-' :: rest =>
    match parseNat rest with
    | some (n, rest2) => (some n, rest2)
    | none => postKeywordPath cs
  | _ => postKeywordPath cs

/-- Dev-release part (`[-_\.]?dev[-_\.]?[0-9]*`). -/
def parseDev (cs : List Char) : Option Nat × List Char :=
  match startsWithCI "dev".data (dropSep cs) with
  | some rest =>
    let nt := parseNumTail rest
    (some nt.1, nt.2)
  | none => (none, cs)

/-- The `[a-z0-9]` class of the local part (case-insensitive). -/
def isAlnumCI (c : Char) : Bool :=
  isAsciiDigit c || (97 ≤ c.toLower.toNat && c.toLower.toNat ≤ 122)

/-- Remaining groups of the local part (`(?:[-_\.][a-z0-9]+)*`), fuelled. -/
def localRest : Nat → List Char → List Char
  | 0, cs => cs
  | fuel + 1, cs =>
    match cs with
    | c :: rest =>
      if c == '-' || c == '_' || c == '.' then
        if (rest.takeWhile isAlnumCI).isEmpty then c :: rest
        else localRest fuel (rest.dropWhile isAlnumCI)
      else c :: rest
    | [] => []

/-- Local part (`\+[a-z0-9]+(?:[-_\.][a-z0-9]+)*`); the consumed characters
are kept verbatim. -/
def parseLocal (cs : List Char) : Option (List Char) × List Char :=
  match cs with
  | '+' :: rest =>
    if (rest.takeWhile isAlnumCI).isEmpty then (none, cs)
    else
      let r2 := localRest rest.length (rest.dropWhile isAlnumCI)
      (some (rest.take (rest.length - r2.length)), r2)
  | _ => (none, cs)

/-- A parsed PEP 440 version as `packaging.version.Version` keeps it:
epoch, release components, optional pre-release (phase rank, number),
optional post number, optional dev number, optional local part. -/
structure PyVersion where
  epoch : Nat
  release : List Nat
  pre : Option (Nat × Nat)
  post : Option Nat
  dev : Option Nat
  localSeg : Option (List Char)
deriving DecidableEq

/-- The optional parts after the release segment (pre, post, dev, local),
followed by the `\s*$` anchor. -/
def parseSuffixes (cs : List Char) (epoch : Nat) (rel : List Nat) :
    Option PyVersion :=
  let pr := parsePre cs
  let po := parsePost pr.2
  let dv := parseDev po.2
  let lo := parseLocal dv.2
  if lo.2.all isPySpace then some ⟨epoch, rel, pr.1, po.1, dv.1, lo.1⟩
  else none

/-- The rest of the release segment and everything after it, given the
epoch and the first release component. -/
def parseReleaseThen (cs : List Char) (epoch firstComp : Nat) :
    Option PyVersion :=
  parseSuffixes (releaseRest cs.length cs).2 epoch
    (firstComp :: (releaseRest cs.length cs).1)

/-- The epoch check and everything after it, given the first parsed
number and the remainder. -/
def afterRelStart (n1 : Nat) (r1 : List Char) : Option PyVersion :=
  if r1.head? = some '!' then
    match parseNat r1.tail with
    | some (n2, r2) => parseReleaseThen r2 n1 n2
    | none => none
  else parseReleaseThen r1 0 n1

/-- Embedding of `packaging.version.parse`: `none` models the
`InvalidVersion` exception raised on a string the PEP 440 pattern rejects. -/
def vparse (s : String) : Option PyVersion :=
  let cs0 := s.data.dropWhile isPySpace
  let cs1 := if cs0.head? = some 'v' ∨ cs0.head? = some 'V' then cs0.tail else cs0
  match parseNat cs1 with
  | none => none
  | some (n1, r1) => afterRelStart n1 r1

/-- The constant `CURRENT_SENTINEL = Version("9999.0.0")` of
`generate_calibration_report.py`. -/
def CURRENT_SENTINEL : PyVersion :=
  ⟨0, [9999, 0, 0], none, none, none, none⟩

/-- Embedding of `safe_parse`: the tag `"current"` maps to the sentinel,
every other string goes through `packaging.version.parse`. -/
def safe_parse (ver : String) : Option PyVersion :=
  if ver = "current" then some CURRENT_SENTINEL else vparse ver

/-! ### Version comparison

`packaging` compares versions through `_cmpkey`: epoch first, then the
release components with trailing zeros removed (tuple comparison), then the
pre/post/dev markers (a version with a pre-release sorts before the bare
release, a post release after it, a dev release before everything else with
the same release number), then the local part.  Local parts are compared
here by presence and then character-wise; the report never compares two
versions with local parts, and no claim depends on that tie-break. -/

/-- Tuple comparison of two `Nat`s. -/
def cmpNat (a b : Nat) : Ordering :=
  if a < b then .lt else if b < a then .gt else .eq

/-- Lexicographic comparison of `Nat` lists (a strict prefix sorts first),
Python's tuple comparison. -/
def lexNat : List Nat → List Nat → Ordering
  | [], [] => .eq
  | [], _ :: _ => .lt
  | _ :: _, [] => .gt
  | a :: as, b :: bs => (cmpNat a b).then (lexNat as bs)

/-- Release components with trailing zeros removed, as `_cmpkey` does. -/
def stripZeros (l : List Nat) : List Nat :=
  (l.reverse.dropWhile (· == 0)).reverse

/-- The pre-release slot of `_cmpkey`: a dev release without pre and post
sorts below everything (`NegativeInfinity`), a missing pre-release above
every actual one (`Infinity`). -/
def preSlot (v : PyVersion) : Nat × Nat × Nat :=
  match v.pre, v.post, v.dev with
  | none, none, some _ => (0, 0, 0)
  | none, _, _ => (2, 0, 0)
  | some (rank, n), _, _ => (1, rank, n)

/-- The post-release slot of `_cmpkey` (`NegativeInfinity` when absent). -/
def postSlot (v : PyVersion) : Nat × Nat :=
  match v.post with
  | none => (0, 0)
  | some n => (1, n)

/-- The dev-release slot of `_cmpkey` (`Infinity` when absent). -/
def devSlot (v : PyVersion) : Nat × Nat :=
  match v.dev with
  | none => (1, 0)
  | some n => (0, n)

/-- The local slot: absent sorts first, then character-wise comparison. -/
def localSlot (v : PyVersion) : Nat × List Nat :=
  match v.localSeg with
  | none => (0, [])
  | some cs => (1, cs.map Char.toNat)

/-- Comparison of two parsed versions, following `packaging`'s `_cmpkey`. -/
def cmpVersion (v w : PyVersion) : Ordering :=
  (cmpNat v.epoch w.epoch).then
  ((lexNat (stripZeros v.release) (stripZeros w.release)).then
  (((lexNat [(preSlot v).1, (preSlot v).2.1, (preSlot v).2.2]
      [(preSlot w).1, (preSlot w).2.1, (preSlot w).2.2]).then
  ((lexNat [(postSlot v).1, (postSlot v).2] [(postSlot w).1, (postSlot w).2]).then
  ((lexNat [(devSlot v).1, (devSlot v).2] [(devSlot w).1, (devSlot w).2]).then
  ((cmpNat (localSlot v).1 (localSlot w).1).then
  (lexNat (localSlot v).2 (localSlot w).2)))))))

/-- Strict version order, `Version.__lt__`. -/
def versionLt (v w : PyVersion) : Bool :=
  cmpVersion v w == Ordering.lt

/-! ## The latest-per-platform view of `generate_summary_table` -/

/-- The `version_key` column added by `load_summary_data`
(`df["version"].apply(safe_parse)`). -/
def versionKey (r : Row) : Option PyVersion := safe_parse r.version

/-- Order on sort keys.  `load_summary_data` raises before the table is
built when any version fails to parse, so the `none` cases are unreachable
in the modelled pipeline; `none` is ordered below every parsed key. -/
def keyLt : Option PyVersion → Option PyVersion → Bool
  | none, none => false
  | none, some _ => true
  | some _, none => false
  | some v, some w => versionLt v w

/-- Embedding of the latest-row selection of `generate_summary_table`:
`df.sort_values("version_key", ascending=False).groupby("os").first()`
keeps, for each `os`, a row whose `version_key` is maximal among that OS's
rows (pandas' unstable sort leaves the choice among equal keys unspecified;
this model keeps the earliest such row). -/
def latestForOs (rows : List Row) (osName : String) : Option Row :=
  (rows.filter (fun r => r.os == osName)).foldl
    (fun acc r =>
      match acc with
      | none => some r
      | some best => if keyLt (versionKey best) (versionKey r) then some r else acc)
    none

/-! ## Statistics aggregator

Modelled from the spec: `get_neighbor_stats` is imported from
`calibration_utils` by `calculate_calibration_diagnostics.py` but its
implementation is absent from the repository snapshot.  Following §4.2 of
the specification it reduces a non-empty collection of distances and the
reference `square_size_mm` to mean, median, standard deviation and the
signed `mean_error = mean_distance - square_size_mm`; the empty collection
is the `InsufficientDataError` failure, modelled as `none`.  The standard
deviation is kept as its square (the sample variance) so that the record
stays inside exact rational arithmetic; no property proved here depends on
its value. -/

/-- Arithmetic mean of a list of rationals. -/
def meanQ (l : List ℚ) : ℚ := l.sum / (l.length : ℚ)

/-- Insert into a sorted list (ascending). -/
def insertSorted (x : ℚ) : List ℚ → List ℚ
  | [] => [x]
  | y :: t => if x ≤ y then x :: y :: t else y :: insertSorted x t

/-- Insertion sort (ascending); the sorted order is all `numpy.median`
depends on. -/
def sortQ (l : List ℚ) : List ℚ := l.foldr insertSorted []

/-- Median of a list of rationals (midpoint of the two central elements of
the sorted list for even lengths, as `numpy.median` computes it). -/
def medianQ (l : List ℚ) : ℚ :=
  let s := sortQ l
  let n := l.length
  if n % 2 = 1 then s.getD (n / 2) 0
  else (s.getD (n / 2 - 1) 0 + s.getD (n / 2) 0) / 2

/-- Sample variance (the square of the sample standard deviation). -/
def sampleVarQ (l : List ℚ) : ℚ :=
  ((l.map (fun x => (x - meanQ l) ^ 2)).sum) / ((l.length : ℚ) - 1)

/-- The summary-statistics record produced for one run. -/
structure NeighborStats where
  mean_distance : ℚ
  median_distance : ℚ
  std_distance_sq : ℚ
  mean_error : ℚ
deriving DecidableEq

/-- Modelled from the spec: `get_neighbor_stats` (implementation absent
from the snapshot), per §4.2 of the specification. -/
def get_neighbor_stats (distances : List ℚ) (charuco_square_size_mm : ℚ) :
    Option NeighborStats :=
  if distances.isEmpty then none
  else some
    { mean_distance := meanQ distances
      median_distance := medianQ distances
      std_distance_sq := sampleVarQ distances
      mean_error := meanQ distances - charuco_square_size_mm }

/-- The constant `EXPECTED = 58.0` of `generate_calibration_report.py`. -/
def EXPECTED : ℚ := 58

/-- The `mean_error` fallback of `load_summary_data`: when the summary CSV
has no `mean_error` column, the column is recomputed as
`df["mean_distance"] - EXPECTED`. -/
def fillMeanError (hasMeanErrorCol : Bool) (rows : List Row) : List Row :=
  if hasMeanErrorCol then rows
  else rows.map (fun r => { r with mean_error := r.mean_distance - EXPECTED })

/-! ## Neighbor-distance extractor

Modelled from the spec: `get_neighbor_distances` is imported from
`calibration_utils` but its implementation is absent from the repository
snapshot.  Following §4.1 of the specification: for every frame and every
grid-adjacent pair of feature positions (same row, columns `i`/`i+1`;
same column, rows `j`/`j+1`) the Euclidean distance of the two 3-D
positions is emitted, and a pair is excluded when either endpoint is
non-finite.  The maximal per-frame count stated by the specification,
`w*(h-1) + h*(w-1)`, corresponds to a grid of `squares_height` rows and
`squares_width` columns of feature positions per frame, which is how the
grid is modelled here.  A missing (non-finite) position is `none`; samples
are recorded as squared distances to stay in exact rational arithmetic,
which changes no counting or pair-selection property. -/

/-- A reconstructed 3-D feature position. -/
structure Point3D where
  x : ℚ
  y : ℚ
  z : ℚ
deriving DecidableEq

/-- One frame of the reconstructed grid: the position at row `j`, column
`i`, or `none` where detection failed. -/
def Frame := Nat → Nat → Option Point3D

/-- Squared Euclidean distance between two positions. -/
def sqDist (p q : Point3D) : ℚ :=
  (p.x - q.x) ^ 2 + (p.y - q.y) ^ 2 + (p.z - q.z) ^ 2

/-- The distance sample of one candidate pair: emitted only when both
endpoints are present. -/
def pairSample (g : Frame) (j₁ i₁ j₂ i₂ : Nat) : Option ℚ :=
  match g j₁ i₁, g j₂ i₂ with
  | some p, some q => some (sqDist p q)
  | _, _ => none

/-- All samples of one frame: horizontally adjacent pairs, then vertically
adjacent pairs. -/
def frameNeighborDistances (g : Frame)
    (number_of_squares_height number_of_squares_width : Nat) : List ℚ :=
  ((List.range number_of_squares_height).flatMap fun j =>
    (List.range (number_of_squares_width - 1)).filterMap fun i =>
      pairSample g j i j (i + 1)) ++
  ((List.range number_of_squares_width).flatMap fun i =>
    (List.range (number_of_squares_height - 1)).filterMap fun j =>
      pairSample g j i (j + 1) i)

/-- Modelled from the spec: `get_neighbor_distances` (implementation
absent from the snapshot), per §4.1 of the specification: the flat
collection of all frames' neighbor-distance samples. -/
def get_neighbor_distances (charuco_3d_data : List Frame)
    (number_of_squares_width number_of_squares_height : Nat) : List ℚ :=
  charuco_3d_data.flatMap fun g =>
    frameNeighborDistances g number_of_squares_height number_of_squares_width

/-! ## The run-record builder of `calculate_calibration_diagnostics.py` -/

/-- The `os_map` dict of `calculate_calibration_diagnostics.run`. -/
def os_map : List (String × String) :=
  [("Darwin", "macOS"), ("Windows", "Windows"), ("Linux", "Linux")]

/-- Embedding of `os_map.get(raw_os, raw_os)`. -/
def osNameOf (raw_os : String) : String :=
  (os_map.lookup raw_os).getD raw_os

/-- The row dict assembled by `run`: the normalized OS name, the fixed
version tag `"current"`, and the four statistics values of
`square_stats`. -/
def buildRunRow (raw_os : String)
    (mean_distance median_distance std_distance mean_error : ℚ) : Row :=
  { os := osNameOf raw_os
    version := "current"
    mean_distance := mean_distance
    median_distance := median_distance
    std_distance := std_distance
    mean_error := mean_error }

/-! ## Spec-side definition for the parsing claim

The specification calls a version string well-formed when it is a "dotted
numeric semantic version string" or the tag `"current"`.  The following
definition renders "dotted numeric" literally — decimal-digit components
separated by single dots — so that it can be compared with what the code's
parser actually accepts. -/

/-- State machine for `digits+ (dot digits+)*`; the flag records whether
the current component already holds at least one digit. -/
def dottedAux : List Char → Bool → Bool
  | [], seen => seen
  | c :: rest, seen =>
    if isAsciiDigit c then dottedAux rest true
    else if c == '.' then seen && dottedAux rest false
    else false

/-- A dotted numeric version string in the specification's sense. -/
def dottedNumeric (s : String) : Bool := dottedAux s.data false

/-! ## Concrete rows used in witnesses and counterexamples -/

/-- A Windows row for release 1.0.0. -/
def wRow1 : Row := ⟨"Windows", "1.0.0", 58, 58, 1, 0⟩

/-- A second row with the same `(Windows, 1.0.0)` key but different
statistics (a re-run of the same version). -/
def wRow1b : Row := ⟨"Windows", "1.0.0", 59, 59, 1, 1⟩

/-- A Windows row tagged `"current"`. -/
def wRowCur : Row := ⟨"Windows", "current", 58, 58, 1, 0⟩

/-- A Linux row tagged `"current"`. -/
def lRowCur : Row := ⟨"Linux", "current", 57, 57, 1, -1⟩

/-- A Windows row for the parseable release 10000.0.0, which is above the
`9999.0.0` sentinel. -/
def wRow10000 : Row := ⟨"Windows", "10000.0.0", 58, 58, 1, 0⟩

/-- A fully detected frame: every grid position is present. -/
def fullFrame : Frame := fun _ _ => some ⟨0, 0, 0⟩

/-- A frame whose corner position (row 0, column 0) is missing. -/
def gapFrame : Frame := fun j i =>
  if j = 0 ∧ i = 0 then none else some ⟨0, 0, 0⟩

/-! # Helper lemmas -/

/-- Stripping the `os` column leaves the `version` column unchanged. -/
theorem stripOsRow_version (r : Row) : (stripOsRow r).version = r.version := rfl

/-- The frame a successful merge persists, explicitly. -/
theorem mergeCalibrationData_ok (history : List Row) (files : List (List Row))
    (res : List Row) (hok : mergeCalibrationData history files = Except.ok res) :
    res = ((history.filter (fun r => r.version ≠ "current")) ++
      files.flatten.map stripOsRow).map stripOsRow := by
  unfold mergeCalibrationData at hok
  split at hok
  · exact Except.noConfusion hok
  · injection hok with h
    exact h.symm

/-! # Claim theorems -/

/-- Claim C1 (corrected), counterexample: merging a batch that repeats the
numeric-version key `(Windows, 1.0.0)` of an existing history row succeeds
and persists a history holding that key twice — the merge never
deduplicates by `(platform, version)`. -/
theorem c1_counterexample :
    mergeCalibrationData [wRow1] [[wRow1b]] = Except.ok [wRow1, wRow1b] ∧
    countKey [wRow1, wRow1b] "Windows" "1.0.0" = 2 :=
  ⟨rfl, rfl⟩

/-- Claim C1 (amended): the unique-key invariant is maintained only for
`"current"`-tagged keys — after a successful merge, each
`(platform, "current")` key occurs in the persisted history exactly as
often as in the normalized new batch, because every prior `"current"` row
is evicted; numeric-version keys are not deduplicated. -/
theorem c1_amended_current_key_multiplicity
    (history : List Row) (files : List (List Row)) (res : List Row) (p : String)
    (hok : mergeCalibrationData history files = Except.ok res) :
    countKey res p "current" =
      countKey ((files.flatten.map stripOsRow).map stripOsRow) p "current" := by
  have hres := mergeCalibrationData_ok history files res hok
  subst hres
  unfold countKey
  rw [List.countP_map, List.countP_append, List.countP_map]
  have hz : List.countP
      ((fun r => r.os == p && r.version == "current") ∘ stripOsRow)
      (history.filter (fun r => r.version ≠ "current")) = 0 := by
    rw [List.countP_eq_zero]
    intro r hr
    have h2 : r.version ≠ "current" := by
      simpa using (List.mem_filter.mp hr).2
    simp [Function.comp, stripOsRow, h2]
  rw [hz, Nat.zero_add, List.countP_map, List.countP_map]

/-- Witness for C1 (amended) at a concrete merge of one `"current"` row. -/
theorem c1_witness :
    countKey [wRowCur] "Windows" "current" =
      countKey (([[wRowCur]].flatten.map stripOsRow).map stripOsRow)
        "Windows" "current" :=
  c1_amended_current_key_multiplicity [wRowCur] [[wRowCur]] [wRowCur] "Windows" rfl

/-- Claim C2 (confirmed): whenever the batch holds a `"current"`-tagged row,
every `"current"`-tagged row of the persisted result originates in the new
batch — all prior `"current"` rows, for every platform, were removed before
the batch was appended. -/
theorem c2_current_rows_come_from_batch
    (history : List Row) (files : List (List Row)) (res : List Row)
    (hok : mergeCalibrationData history files = Except.ok res)
    (hbatch : ∃ b ∈ files.flatten, b.version = "current") :
    ∀ r ∈ res, r.version = "current" →
      ∃ b ∈ files.flatten, r = stripOsRow (stripOsRow b) := by
  have hres := mergeCalibrationData_ok history files res hok
  subst hres
  intro r hr hv
  obtain ⟨r0, hr0, rfl⟩ := List.mem_map.mp hr
  rcases List.mem_append.mp hr0 with hL | hR
  · exfalso
    have h2 : r0.version ≠ "current" := by
      simpa using (List.mem_filter.mp hL).2
    exact h2 (by simpa [stripOsRow_version] using hv)
  · obtain ⟨b, hb, rfl⟩ := List.mem_map.mp hR
    exact ⟨b, hb, rfl⟩

/-- Witness for C2: a prior Linux `"current"` row is evicted by a Windows
`"current"` batch, and the surviving `"current"` row is the batch's. -/
theorem c2_witness :
    ∃ b ∈ [[wRowCur]].flatten, wRowCur = stripOsRow (stripOsRow b) :=
  c2_current_rows_come_from_batch [lRowCur] [[wRowCur]] [wRowCur] rfl
    ⟨wRowCur, by simp, rfl⟩ wRowCur (by simp) rfl

/-- Claim C4 (corrected), counterexample: one collected CSV file holding
zero data rows passes the guard — the merge reports success and persists a
history that differs from the prior one (the prior `"current"` row is
gone), instead of failing loudly on an empty batch. -/
theorem c4_counterexample :
    mergeCalibrationData [wRowCur] [[]] = Except.ok [] ∧
    ([] : List Row) ≠ [wRowCur] :=
  ⟨rfl, by simp⟩

/-- Claim C4 (amended): the merge fails loudly exactly when the collected
directory holds no CSV file at all; CSV files with zero data rows proceed
as a successful merge. -/
theorem c4_amended_fails_only_without_files
    (history : List Row) (files : List (List Row)) :
    (mergeCalibrationData history files).isOk = false ↔ files = [] := by
  cases files with
  | nil => simp [mergeCalibrationData, Except.isOk, Except.toBool]
  | cons f fs => simp [mergeCalibrationData, Except.isOk, Except.toBool]

/-- Witness for C4 (amended): with no collected files the merge errors. -/
theorem c4_witness : (mergeCalibrationData [] []).isOk = false :=
  (c4_amended_fails_only_without_files [] []).mpr rfl

/-- Claim C8 (confirmed): over histories whose `os` cells are already
whitespace-normalized (the form every persisted history has), a prior row
disappears from the merged result only when it is tagged `"current"`; every
non-`"current"` prior row survives unchanged. -/
theorem c8_removed_only_by_supersession
    (history : List Row) (files : List (List Row)) (res : List Row)
    (hok : mergeCalibrationData history files = Except.ok res)
    (hnorm : ∀ r ∈ history, stripOsRow r = r) :
    (∀ r ∈ history, r.version ≠ "current" → r ∈ res) ∧
    (∀ r ∈ history, r ∉ res → r.version = "current") := by
  have hres := mergeCalibrationData_ok history files res hok
  subst hres
  have hkeep : ∀ r ∈ history, r.version ≠ "current" →
      r ∈ ((history.filter (fun r => r.version ≠ "current")) ++
        files.flatten.map stripOsRow).map stripOsRow := by
    intro r hr hv
    refine List.mem_map.mpr ⟨r, ?_, hnorm r hr⟩
    exact List.mem_append_left _ (List.mem_filter.mpr ⟨hr, by simpa using hv⟩)
  refine ⟨hkeep, ?_⟩
  intro r hr hnin
  by_contra hv
  exact hnin (hkeep r hr hv)

/-- Witness for C8 at a concrete merge: the numeric-version row survives. -/
theorem c8_witness : wRow1 ∈ [wRow1, wRow1] :=
  (c8_removed_only_by_supersession [wRow1] [[wRow1]] [wRow1, wRow1] rfl
    (by intro r hr; simp at hr; subst hr; rfl)).1 wRow1 (by simp) (by decide)

/-- Claim C3 (code bug): evaluating the code's version order at the
parseable numeric version `10000.0.0` shows the `"current"` sentinel is not
maximal — `safe_parse` maps `"current"` to the fixed `Version("9999.0.0")`,
which sorts strictly below `10000.0.0`, contradicting the docstring of
`safe_parse` ("so it always sorts last") and the specified total order. -/
theorem c3_current_sentinel_not_maximal :
    safe_parse "current" = some CURRENT_SENTINEL ∧
    vparse "10000.0.0" = some (PyVersion.mk 0 [10000, 0, 0] none none none none) ∧
    versionLt CURRENT_SENTINEL (PyVersion.mk 0 [10000, 0, 0] none none none none)
      = true := by
  decide

/-- Claim C7 (code bug): evaluating the latest-per-platform selection on a
Windows history holding releases `10000.0.0` and `"current"` — the code
selects the `10000.0.0` row, although the specified order makes the
`"current"` row latest whenever it exists for the platform. -/
theorem c7_latest_row_not_current :
    latestForOs [wRow10000, wRowCur] "Windows" = some wRow10000 ∧
    wRow10000.version ≠ "current" := by
  constructor
  · decide
  · decide

/-- Claim C5 (confirmed, aggregator modelled from the spec): every computed
statistics record satisfies `mean_error = mean_distance - square_size_mm`
exactly and with sign, with `mean_distance` the arithmetic mean of the
distance samples; the report-side fallback recomputation of the column
likewise subtracts the reference size `EXPECTED = 58`. -/
theorem c5_mean_error_signed :
    (∀ distances (sq : ℚ) st, get_neighbor_stats distances sq = some st →
      st.mean_error = st.mean_distance - sq ∧
      st.mean_distance = distances.sum / (distances.length : ℚ)) ∧
    (∀ rows : List Row, ∀ r ∈ fillMeanError false rows,
      r.mean_error = r.mean_distance - EXPECTED) := by
  constructor
  · intro d sq st h
    unfold get_neighbor_stats at h
    split at h
    · exact Option.noConfusion h
    · injection h with h
      subst h
      exact ⟨rfl, rfl⟩
  · intro rows r hr
    unfold fillMeanError at hr
    simp only [Bool.false_eq_true, if_false, List.mem_map] at hr
    obtain ⟨r0, hr0, rfl⟩ := hr
    rfl

/-- Witness for C5 on the concrete sample list `[58, 59]` with reference
size 58. -/
theorem c5_witness :
    (⟨meanQ [58, 59], medianQ [58, 59], sampleVarQ [58, 59],
        meanQ [58, 59] - 58⟩ : NeighborStats).mean_error =
      (⟨meanQ [58, 59], medianQ [58, 59], sampleVarQ [58, 59],
        meanQ [58, 59] - 58⟩ : NeighborStats).mean_distance - 58 :=
  (c5_mean_error_signed.1 [58, 59] 58
    ⟨meanQ [58, 59], medianQ [58, 59], sampleVarQ [58, 59], meanQ [58, 59] - 58⟩
    rfl).1

/-- Unknown platform strings fall through `os_map.get(raw_os, raw_os)`
unchanged. -/
theorem osNameOf_eq_of_ne_darwin (raw : String) (h : raw ≠ "Darwin") :
    osNameOf raw = raw := by
  have hD : (raw == "Darwin") = false := beq_eq_false_iff_ne.mpr h
  unfold osNameOf os_map
  by_cases h2 : raw = "Windows"
  · subst h2; rfl
  · have hW : (raw == "Windows") = false := beq_eq_false_iff_ne.mpr h2
    by_cases h3 : raw = "Linux"
    · subst h3; rfl
    · have hL : (raw == "Linux") = false := beq_eq_false_iff_ne.mpr h3
      simp only [List.lookup, hD, hW, hL]
      rfl

/-- Claim C10 (confirmed): the run-record builder writes any
platform-detection string other than `"Darwin"` unchanged into the row's
`os` field (in particular raw values outside the canonical set are neither
rejected nor coerced), and only `"Darwin"` is renamed, to `"macOS"`. -/
theorem c10_unknown_platform_passthrough :
    (∀ raw (m md sd me : ℚ), raw ≠ "Darwin" →
      (buildRunRow raw m md sd me).os = raw) ∧
    (∀ m md sd me : ℚ, (buildRunRow "Darwin" m md sd me).os = "macOS") :=
  ⟨fun raw _ _ _ _ h => osNameOf_eq_of_ne_darwin raw h,
   fun _ _ _ _ => rfl⟩

/-- Witness for C10 at the non-canonical platform string `"SunOS"`. -/
theorem c10_witness : (buildRunRow "SunOS" 1 2 3 4).os = "SunOS" :=
  c10_unknown_platform_passthrough.1 "SunOS" 1 2 3 4 (by decide)

/-! ## Counting lemmas for the neighbor-distance extractor -/

/-- A `filterMap` that succeeds everywhere keeps the length. -/
theorem length_filterMap_all_some {α β : Type} (f : α → Option β) :
    ∀ l : List α, (∀ a ∈ l, (f a).isSome = true) →
      (l.filterMap f).length = l.length := by
  intro l
  induction l with
  | nil => intro _; rfl
  | cons a t ih =>
    intro h
    obtain ⟨b, hb⟩ := Option.isSome_iff_exists.mp (h a (by simp))
    rw [List.filterMap_cons, hb, List.length_cons, List.length_cons,
      ih (fun x hx => h x (by simp [hx]))]

/-- A `filterMap` never lengthens a list. -/
theorem length_filterMap_le_gen {α β : Type} (f : α → Option β) :
    ∀ l : List α, (l.filterMap f).length ≤ l.length := by
  intro l
  induction l with
  | nil => simp
  | cons a t ih =>
    rw [List.filterMap_cons]
    cases f a
    · exact Nat.le_succ_of_le ih
    · simpa using ih

/-- A `filterMap` that fails on some element strictly shortens the list. -/
theorem length_filterMap_lt_of_none {α β : Type} (f : α → Option β) :
    ∀ l : List α, ∀ a ∈ l, f a = none →
      (l.filterMap f).length < l.length := by
  intro l
  induction l with
  | nil => intro a ha; cases ha
  | cons b t ih =>
    intro a ha hn
    rw [List.filterMap_cons, List.length_cons]
    rcases List.mem_cons.mp ha with rfl | hat
    · rw [hn]
      exact Nat.lt_succ_of_le (length_filterMap_le_gen f t)
    · cases hb : f b
      · exact Nat.lt_succ_of_lt (ih a hat hn)
      · simpa using Nat.succ_lt_succ (ih a hat hn)

/-- Length of a `flatMap` whose pieces all have the same length. -/
theorem length_flatMap_const {α : Type} (c : Nat) (f : α → List ℚ) :
    ∀ l : List α, (∀ a ∈ l, (f a).length = c) →
      (l.flatMap f).length = l.length * c := by
  intro l
  induction l with
  | nil => intro _; simp
  | cons a t ih =>
    intro h
    rw [List.flatMap_cons, List.length_append, h a (by simp),
      ih (fun x hx => h x (by simp [hx])), List.length_cons, Nat.succ_mul]
    omega

/-- Length bound for a `flatMap` whose pieces are all bounded. -/
theorem length_flatMap_le {α : Type} (c : Nat) (f : α → List ℚ) :
    ∀ l : List α, (∀ a ∈ l, (f a).length ≤ c) →
      (l.flatMap f).length ≤ l.length * c := by
  intro l
  induction l with
  | nil => intro _; simp
  | cons a t ih =>
    intro h
    rw [List.flatMap_cons, List.length_append, List.length_cons, Nat.succ_mul]
    have h1 := h a (by simp)
    have h2 := ih (fun x hx => h x (by simp [hx]))
    omega

/-- Strict length bound for a `flatMap` with one strictly short piece. -/
theorem length_flatMap_lt {α : Type} (c : Nat) (f : α → List ℚ) :
    ∀ l : List α, (∀ a ∈ l, (f a).length ≤ c) →
      ∀ a₀ ∈ l, (f a₀).length < c →
        (l.flatMap f).length < l.length * c := by
  intro l
  induction l with
  | nil => intro _ a₀ ha; cases ha
  | cons a t ih =>
    intro h a₀ ha hs
    rw [List.flatMap_cons, List.length_append, List.length_cons, Nat.succ_mul]
    rcases List.mem_cons.mp ha with rfl | hat
    · have h2 := length_flatMap_le c f t (fun x hx => h x (by simp [hx]))
      omega
    · have h1 := h a (by simp)
      have h2 := ih (fun x hx => h x (by simp [hx])) a₀ hat hs
      omega

/-- A pair with both endpoints present yields a sample. -/
theorem pairSample_isSome (g : Frame) {j₁ i₁ j₂ i₂ : Nat}
    (h1 : (g j₁ i₁).isSome = true) (h2 : (g j₂ i₂).isSome = true) :
    (pairSample g j₁ i₁ j₂ i₂).isSome = true := by
  obtain ⟨p, hp⟩ := Option.isSome_iff_exists.mp h1
  obtain ⟨q, hq⟩ := Option.isSome_iff_exists.mp h2
  unfold pairSample
  rw [hp, hq]
  rfl

/-- A pair whose first endpoint is missing is excluded. -/
theorem pairSample_none_left (g : Frame) {j₁ i₁ : Nat} (j₂ i₂ : Nat)
    (h : g j₁ i₁ = none) : pairSample g j₁ i₁ j₂ i₂ = none := by
  unfold pairSample
  rw [h]

/-- A pair whose second endpoint is missing is excluded. -/
theorem pairSample_none_right (g : Frame) (j₁ i₁ : Nat) {j₂ i₂ : Nat}
    (h : g j₂ i₂ = none) : pairSample g j₁ i₁ j₂ i₂ = none := by
  unfold pairSample
  rw [h]
  cases g j₁ i₁ <;> rfl

/-- On a fully detected frame the extractor emits exactly
`h*(w-1)` horizontal and `w*(h-1)` vertical samples. -/
theorem frameNeighborDistances_length_full (g : Frame) (h w : Nat)
    (hfin : ∀ j, j < h → ∀ i, i < w → (g j i).isSome = true) :
    (frameNeighborDistances g h w).length = w * (h - 1) + h * (w - 1) := by
  unfold frameNeighborDistances
  rw [List.length_append]
  have hH : ((List.range h).flatMap fun j =>
      (List.range (w - 1)).filterMap fun i => pairSample g j i j (i + 1)).length
      = h * (w - 1) := by
    rw [length_flatMap_const (w - 1) _ (List.range h) ?_, List.length_range]
    intro j hj
    have hj' := List.mem_range.mp hj
    rw [length_filterMap_all_some _ (List.range (w - 1)) ?_, List.length_range]
    intro i hi
    have hi' := List.mem_range.mp hi
    exact pairSample_isSome g (hfin j hj' i (by omega)) (hfin j hj' (i + 1) (by omega))
  have hV : ((List.range w).flatMap fun i =>
      (List.range (h - 1)).filterMap fun j => pairSample g j i (j + 1) i).length
      = w * (h - 1) := by
    rw [length_flatMap_const (h - 1) _ (List.range w) ?_, List.length_range]
    intro i hi
    have hi' := List.mem_range.mp hi
    rw [length_filterMap_all_some _ (List.range (h - 1)) ?_, List.length_range]
    intro j hj
    have hj' := List.mem_range.mp hj
    exact pairSample_isSome g (hfin j (by omega) i hi') (hfin (j + 1) (by omega) i hi')
  rw [hH, hV]
  omega

/-- On a frame with a missing position the extractor emits strictly fewer
samples than the full count. -/
theorem frameNeighborDistances_length_missing (g : Frame) (h w : Nat)
    (hw : 2 ≤ w)
    (hmiss : ∃ j, j < h ∧ ∃ i, i < w ∧ g j i = none) :
    (frameNeighborDistances g h w).length < w * (h - 1) + h * (w - 1) := by
  obtain ⟨j₀, hj₀, i₀, hi₀, hnone⟩ := hmiss
  unfold frameNeighborDistances
  rw [List.length_append]
  have hV : ((List.range w).flatMap fun i =>
      (List.range (h - 1)).filterMap fun j => pairSample g j i (j + 1) i).length
      ≤ w * (h - 1) := by
    have := length_flatMap_le (h - 1)
      (fun i => (List.range (h - 1)).filterMap fun j => pairSample g j i (j + 1) i)
      (List.range w)
      (fun i _ => by
        have := length_filterMap_le_gen
          (fun j => pairSample g j i (j + 1) i) (List.range (h - 1))
        simpa [List.length_range] using this)
    simpa [List.length_range] using this
  have hH : ((List.range h).flatMap fun j =>
      (List.range (w - 1)).filterMap fun i => pairSample g j i j (i + 1)).length
      < h * (w - 1) := by
    have hrow : ((List.range (w - 1)).filterMap fun i =>
        pairSample g j₀ i j₀ (i + 1)).length < w - 1 := by
      by_cases hcase : i₀ < w - 1
      · have := length_filterMap_lt_of_none
          (fun i => pairSample g j₀ i j₀ (i + 1)) (List.range (w - 1))
          i₀ (List.mem_range.mpr hcase) (pairSample_none_left g _ _ hnone)
        simpa [List.length_range] using this
      · have hi₀' : i₀ = w - 1 := by omega
        have hmem : i₀ - 1 ∈ List.range (w - 1) := List.mem_range.mpr (by omega)
        have hplus : i₀ - 1 + 1 = i₀ := by omega
        have hpair : pairSample g j₀ (i₀ - 1) j₀ (i₀ - 1 + 1) = none := by
          rw [hplus]
          exact pairSample_none_right g _ _ hnone
        have := length_filterMap_lt_of_none
          (fun i => pairSample g j₀ i j₀ (i + 1)) (List.range (w - 1))
          (i₀ - 1) hmem hpair
        simpa [List.length_range] using this
    have := length_flatMap_lt (w - 1)
      (fun j => (List.range (w - 1)).filterMap fun i => pairSample g j i j (i + 1))
      (List.range h)
      (fun j _ => by
        have := length_filterMap_le_gen
          (fun i => pairSample g j i j (i + 1)) (List.range (w - 1))
        simpa [List.length_range] using this)
      j₀ (List.mem_range.mpr hj₀) hrow
    simpa [List.length_range] using this
  omega

/-- Claim C6 (confirmed, extractor modelled from the spec): on a board with
`squares_width = w` and `squares_height = h`, both at least 2, a frame in
which every grid position is present yields exactly `w*(h-1) + h*(w-1)`
neighbor-distance samples, and a frame with a missing position yields
strictly fewer (pairs with a missing endpoint are excluded, and only
grid-adjacent pairs are ever formed). -/
theorem c6_adjacent_pair_count (w h : Nat) (g : Frame)
    (hw : 2 ≤ w) (hh : 2 ≤ h) :
    ((∀ j, j < h → ∀ i, i < w → (g j i).isSome = true) →
      (frameNeighborDistances g h w).length = w * (h - 1) + h * (w - 1)) ∧
    ((∃ j, j < h ∧ ∃ i, i < w ∧ g j i = none) →
      (frameNeighborDistances g h w).length < w * (h - 1) + h * (w - 1)) :=
  ⟨frameNeighborDistances_length_full g h w,
   frameNeighborDistances_length_missing g h w hw⟩

/-- Witness for C6 on a 2×2 grid: the full frame yields all four samples,
the frame with a missing corner yields fewer. -/
theorem c6_witness :
    (frameNeighborDistances fullFrame 2 2).length = 2 * (2 - 1) + 2 * (2 - 1) ∧
    (frameNeighborDistances gapFrame 2 2).length < 2 * (2 - 1) + 2 * (2 - 1) :=
  ⟨(c6_adjacent_pair_count 2 2 fullFrame (by decide) (by decide)).1 (by decide),
   (c6_adjacent_pair_count 2 2 gapFrame (by decide) (by decide)).2 (by decide)⟩

/-! ## Soundness of the version parser on dotted-numeric strings -/

/-- A decimal digit is not Python whitespace. -/
theorem isPySpace_false_of_digit (c : Char) (h : isAsciiDigit c = true) :
    isPySpace c = false := by
  cases hs : isPySpace c
  · rfl
  · exfalso
    unfold isPySpace at hs
    simp only [Bool.or_eq_true, beq_iff_eq] at hs
    rcases hs with ((((rfl | rfl) | rfl) | rfl) | rfl) | rfl <;>
      exact absurd h (by decide)

/-- Dropping nothing: `dropWhile` on a head the predicate rejects. -/
theorem length_dropWhile_le_gen {α : Type} (p : α → Bool) :
    ∀ l : List α, (l.dropWhile p).length ≤ l.length := by
  intro l
  induction l with
  | nil => simp
  | cons a t ih =>
    rw [List.dropWhile_cons]
    split
    · exact Nat.le_succ_of_le ih
    · exact Nat.le_refl _

/-- Running `parseNat` on a digit-headed input consumes the digits. -/
theorem parseNat_digit_head {c : Char} (t : List Char)
    (hc : isAsciiDigit c = true) :
    parseNat (c :: t) = some (natOfDigits ((c :: t).takeWhile isAsciiDigit),
      (c :: t).dropWhile isAsciiDigit) := by
  unfold parseNat
  rw [List.takeWhile_cons, if_pos hc]
  rfl

/-- Structure of a dotted-numeric character list: it starts with a digit,
and after the leading digits either nothing or a dot followed by another
dotted-numeric tail remains. -/
theorem dottedAux_structure :
    ∀ cs : List Char,
      (dottedAux cs true = true →
        cs.dropWhile isAsciiDigit = [] ∨
        ∃ r2, cs.dropWhile isAsciiDigit = '.' :: r2 ∧ dottedAux r2 false = true) ∧
      (dottedAux cs false = true →
        (∃ c t, cs = c :: t ∧ isAsciiDigit c = true) ∧
        (cs.dropWhile isAsciiDigit = [] ∨
         ∃ r2, cs.dropWhile isAsciiDigit = '.' :: r2 ∧
           dottedAux r2 false = true)) := by
  intro cs
  induction cs with
  | nil => exact ⟨fun _ => Or.inl rfl, fun h => absurd h (by decide)⟩
  | cons c t ih =>
    by_cases hd : isAsciiDigit c = true
    · have hrw : ∀ seen, dottedAux (c :: t) seen = dottedAux t true := by
        intro seen
        show (if isAsciiDigit c then dottedAux t true
          else if c == '.' then seen && dottedAux t false else false) =
          dottedAux t true
        rw [if_pos hd]
      have hdw : (c :: t).dropWhile isAsciiDigit = t.dropWhile isAsciiDigit := by
        rw [List.dropWhile_cons, if_pos hd]
      constructor
      · intro h
        rw [hrw] at h
        rw [hdw]
        exact ih.1 h
      · intro h
        rw [hrw] at h
        refine ⟨⟨c, t, rfl, hd⟩, ?_⟩
        rw [hdw]
        exact ih.1 h
    · have hd' : isAsciiDigit c = false := by
        cases hx : isAsciiDigit c
        · rfl
        · exact absurd hx hd
      by_cases hdot : c = '.'
      · subst hdot
        have hrw : ∀ seen, dottedAux ('.' :: t) seen =
            (seen && dottedAux t false) := by
          intro seen
          show (if isAsciiDigit '.' then dottedAux t true
            else if '.' == '.' then seen && dottedAux t false else false) =
            (seen && dottedAux t false)
          rw [if_neg (by decide), if_pos (by decide)]
        have hdw : ('.' :: t).dropWhile isAsciiDigit = '.' :: t := by
          rw [List.dropWhile_cons, if_neg (by decide)]
        constructor
        · intro h
          rw [hrw, Bool.true_and] at h
          right
          exact ⟨t, hdw, h⟩
        · intro h
          rw [hrw, Bool.false_and] at h
          exact absurd h (by decide)
      · have hrw : ∀ seen, dottedAux (c :: t) seen = false := by
          intro seen
          show (if isAsciiDigit c then dottedAux t true
            else if c == '.' then seen && dottedAux t false else false) = false
          rw [if_neg hd, if_neg (by simp [beq_iff_eq, hdot])]
        constructor <;>
          (intro h; rw [hrw] at h; exact absurd h (by decide))

/-- The function `releaseRest` consumes a whole dotted-digits tail given enough
fuel. -/
theorem releaseRest_consumes :
    ∀ fuel cs, cs.length ≤ fuel →
      (cs = [] ∨ ∃ r2, cs = '.' :: r2 ∧ dottedAux r2 false = true) →
      (releaseRest fuel cs).2 = [] := by
  intro fuel
  induction fuel with
  | zero =>
    intro cs hlen hcs
    rcases hcs with rfl | ⟨r2, rfl, _⟩
    · rfl
    · simp at hlen
  | succ fuel ih =>
    intro cs hlen hcs
    rcases hcs with rfl | ⟨r2, rfl, h2⟩
    · rfl
    · obtain ⟨⟨c, t, hct, hc⟩, hP⟩ := (dottedAux_structure r2).2 h2
      subst hct
      have hred : releaseRest (fuel + 1) ('.' :: c :: t) =
          (natOfDigits ((c :: t).takeWhile isAsciiDigit) ::
            (releaseRest fuel ((c :: t).dropWhile isAsciiDigit)).1,
           (releaseRest fuel ((c :: t).dropWhile isAsciiDigit)).2) := by
        simp only [releaseRest, parseNat_digit_head t hc]
      rw [hred]
      have hlen2 : ((c :: t).dropWhile isAsciiDigit).length ≤ fuel := by
        have h1 := length_dropWhile_le_gen isAsciiDigit (c :: t)
        simp only [List.length_cons] at hlen h1 ⊢
        omega
      exact ih _ hlen2 hP

/-- With nothing after the release segment, the suffix parsers all pass and
the version is accepted. -/
theorem parseSuffixes_nil (epoch : Nat) (rel : List Nat) :
    parseSuffixes [] epoch rel = some ⟨epoch, rel, none, none, none, none⟩ :=
  rfl

/-- Every dotted-numeric string is accepted by the PEP 440 parser. -/
theorem vparse_isSome_of_dotted :
    ∀ s : String, dottedNumeric s = true → (vparse s).isSome = true := by
  intro s h
  unfold dottedNumeric at h
  obtain ⟨⟨c, t, hct, hc⟩, hP⟩ := (dottedAux_structure s.data).2 h
  rw [hct] at hP
  have hnv : ¬((c :: t).head? = some 'v' ∨ (c :: t).head? = some 'V') := by
    intro hv
    rcases hv with hv | hv <;>
      (simp only [List.head?, Option.some.injEq] at hv; subst hv;
        exact absurd hc (by decide))
  have hdwsp : (c :: t).dropWhile isPySpace = c :: t := by
    rw [List.dropWhile_cons, if_neg (by simp [isPySpace_false_of_digit c hc])]
  simp only [vparse]
  rw [hct, hdwsp, if_neg hnv, parseNat_digit_head t hc]
  show (afterRelStart (natOfDigits ((c :: t).takeWhile isAsciiDigit))
      ((c :: t).dropWhile isAsciiDigit)).isSome = true
  have hnb : ¬(((c :: t).dropWhile isAsciiDigit).head? = some '!') := by
    rcases hP with hnil | ⟨r2, hr2, _⟩
    · rw [hnil]
      simp
    · rw [hr2]
      simp only [List.head?, Option.some.injEq]
      decide
  unfold afterRelStart
  rw [if_neg hnb]
  unfold parseReleaseThen
  rw [releaseRest_consumes _ _ (Nat.le_refl _) hP]
  rw [parseSuffixes_nil]
  rfl

/-- Claim C9 (corrected), counterexample: the PEP 440 pre-release form
`1.0rc1` is neither dotted-numeric nor `"current"`, yet `safe_parse`
silently coerces it into a comparable version instead of failing. -/
theorem c9_counterexample :
    dottedNumeric "1.0rc1" = false ∧ "1.0rc1" ≠ "current" ∧
    safe_parse "1.0rc1" =
      some (PyVersion.mk 0 [1, 0] (some (2, 1)) none none none) :=
  ⟨by decide, by decide, by decide⟩

/-- Claim C9 (amended): version parsing fails (raising `InvalidVersion`,
the code's analogue of `MalformedVersionError`) exactly for strings the
PEP 440 grammar rejects — every dotted-numeric string and the tag
`"current"` parse, and genuinely malformed strings are rejected — but the
accepted set is strictly wider than dotted-numeric-plus-`"current"`. -/
theorem c9_amended_rejects_only_non_pep440 :
    (∀ s, dottedNumeric s = true → (safe_parse s).isSome = true) ∧
    (safe_parse "current").isSome = true ∧
    safe_parse "not a version" = none ∧
    safe_parse "1.2.x" = none := by
  refine ⟨?_, by decide, by decide, by decide⟩
  intro s h
  unfold safe_parse
  split
  · rfl
  · exact vparse_isSome_of_dotted s h

/-- Witness for C9 (amended) at the dotted-numeric string `1.2.3`. -/
theorem c9_witness : (safe_parse "1.2.3").isSome = true :=
  c9_amended_rejects_only_non_pep440.1 "1.2.3" (by decide)

end FreemocapCalib
